import Mathlib

/-!
Verification development for the tweet-analyzer-py scripts.

The definitions below are a shallow embedding of the Python source:

* `app/friend_graphs/bq_list_grapher.py` — `BigQueryListGrapher.perform`,
  modelled as a fold (`perform`) of a per-row step (`perform_step`) over the
  sequence of rows the warehouse fetch yields;
* `app/friend_graphs/base_grapher.py` — `BaseGrapher.init_local_dir`,
  modelled over a filesystem abstracted as the list of existing paths;
* `app/storage_service.py` — `BigQueryService.fetch_remaining_users`,
  whose SQL-string assembly is modelled as the list of appended pieces
  (`fetch_remaining_users_sql_pieces`) together with their exact rendering;
* `app/bot_communities/retweet_analyzer.py` — `RetweetsAnalyzer.most_retweets_df`
  and `generate_most_retweets_chart`, over a data frame modelled as a list of
  rows;
* `app/bot_impact_v4/daily_active_user_friend_grapher.py` — the `__main__`
  script, modelled as the trace of actions it performs as a function of the
  checkpoint-file existence checks and the destructive flags;
* the networkx `DiGraph(edge_list)` constructor, modelled as the finite sets
  of endpoint nodes and deduplicated edges.
-/

/-- A row yielded by `bq_service.fetch_user_friends_in_batches`: the Python
code reads `row["screen_name"]` and `row["friend_names"]`. -/
structure UserFriendsRow where
  screen_name : String
  friend_names : List String
deriving DecidableEq, Repr

/-- One running-results entry `rr = {"ts": logstamp(), "counter": self.counter,
"edges": len(self.edges)}` from `BigQueryListGrapher.perform`.  The `ts` field
is a wall-clock timestamp string used only for logging; it is not modelled. -/
structure RunningResult where
  counter : Nat
  edges : Nat
deriving DecidableEq, Repr

/-- The mutable state of the fetch loop in `BigQueryListGrapher.perform`:
`self.counter` (set to 0 by `start()`), `self.edges` and
`self.running_results` (both initialised to `[]` before the loop). -/
structure GrapherState where
  counter : Nat
  edges : List (String × String)
  running_results : List RunningResult
deriving DecidableEq, Repr

/-- One iteration of the `for row in self.bq_service.fetch_user_friends_in_batches(...)`
loop in `BigQueryListGrapher.perform`:

    self.counter += 1
    if not self.dry_run:
        self.edges += [(row["screen_name"], friend) for friend in row["friend_names"]]
    if self.counter % self.batch_size == 0:
        rr = {"ts": logstamp(), "counter": self.counter, "edges": len(self.edges)}
        self.running_results.append(rr)
-/
def perform_step (dry_run : Bool) (batch_size : Nat) (s : GrapherState)
    (row : UserFriendsRow) : GrapherState :=
  let counter := s.counter + 1
  let edges :=
    if dry_run then s.edges
    else s.edges ++ row.friend_names.map (fun friend => (row.screen_name, friend))
  let running_results :=
    if counter % batch_size == 0 then
      s.running_results ++ [{ counter := counter, edges := edges.length }]
    else
      s.running_results
  { counter := counter, edges := edges, running_results := running_results }

/-- The fetch loop of `BigQueryListGrapher.perform`, folded over the sequence
of rows the warehouse fetch yields, starting from `counter = 0`,
`edges = []`, `running_results = []`. -/
def perform (dry_run : Bool) (batch_size : Nat) (rows : List UserFriendsRow) :
    GrapherState :=
  rows.foldl (perform_step dry_run batch_size)
    { counter := 0, edges := [], running_results := [] }

/-- The networkx directed graph, as far as this code observes it: its node set
and its edge set. -/
structure DiGraph where
  nodes : Finset String
  edges : Finset (String × String)
deriving DecidableEq

/-- The networkx constructor `DiGraph(edge_list)`, called as
`self.graph = DiGraph(self.edges)` builds a graph whose edges are the distinct
pairs of the list and whose nodes are all endpoints appearing in it. -/
def DiGraph.of_edge_list (l : List (String × String)) : DiGraph :=
  { nodes := (l.map Prod.fst ++ l.map Prod.snd).toFinset
    edges := l.toFinset }

/-- The list of all pairs `(row.screen_name, friend)` over every row and every
friend in the `friend_names` of that row, in order. -/
def all_friend_pairs (rows : List UserFriendsRow) : List (String × String) :=
  (rows.map (fun row => row.friend_names.map (fun friend => (row.screen_name, friend)))).flatten

-- Helper lemmas about the fold.

theorem foldl_perform_step_counter (dry_run : Bool) (batch_size : Nat)
    (rows : List UserFriendsRow) (s : GrapherState) :
    (rows.foldl (perform_step dry_run batch_size) s).counter =
      s.counter + rows.length := by
  induction rows generalizing s with
  | nil => simp
  | cons r rs ih =>
      simp only [List.foldl_cons, ih, List.length_cons, perform_step]
      omega

theorem foldl_perform_step_edges_false (batch_size : Nat)
    (rows : List UserFriendsRow) (s : GrapherState) :
    (rows.foldl (perform_step false batch_size) s).edges =
      s.edges ++ all_friend_pairs rows := by
  induction rows generalizing s with
  | nil => simp [all_friend_pairs]
  | cons r rs ih =>
      rw [List.foldl_cons, ih]
      simp [perform_step, all_friend_pairs, List.append_assoc]

theorem foldl_perform_step_edges_true (batch_size : Nat)
    (rows : List UserFriendsRow) (s : GrapherState) :
    (rows.foldl (perform_step true batch_size) s).edges = s.edges := by
  induction rows generalizing s with
  | nil => rfl
  | cons r rs ih => simp [List.foldl_cons, ih, perform_step]

/-- C2: when `dry_run` is false the edges list built by the loop is exactly
the concatenation, row by row, of the `(screen_name, friend)` pairs of each
row; and the edge set of the constructed graph is the set of those pairs. -/
theorem perform_edges_characterization (batch_size : Nat)
    (rows : List UserFriendsRow) :
    (perform false batch_size rows).edges = all_friend_pairs rows ∧
    ∀ p : String × String,
      p ∈ (DiGraph.of_edge_list (perform false batch_size rows).edges).edges ↔
        ∃ row ∈ rows, ∃ friend ∈ row.friend_names,
          p = (row.screen_name, friend) := by
  have h : (perform false batch_size rows).edges = all_friend_pairs rows := by
    simpa using foldl_perform_step_edges_false batch_size rows _
  refine ⟨h, fun p => ?_⟩
  rw [DiGraph.of_edge_list, h]
  simp only [List.mem_toFinset, all_friend_pairs, List.mem_flatten, List.mem_map]
  constructor
  · rintro ⟨l, ⟨row, hrow, rfl⟩, hp⟩
    rcases List.mem_map.mp hp with ⟨friend, hf, rfl⟩
    exact ⟨row, hrow, friend, hf, rfl⟩
  · rintro ⟨row, hrow, friend, hf, rfl⟩
    exact ⟨row.friend_names.map (fun friend => (row.screen_name, friend)),
      ⟨row, hrow, rfl⟩, List.mem_map.mpr ⟨friend, hf, rfl⟩⟩

theorem perform_append_singleton (dry_run : Bool) (batch_size : Nat)
    (l : List UserFriendsRow) (a : UserFriendsRow) :
    perform dry_run batch_size (l ++ [a]) =
      perform_step dry_run batch_size (perform dry_run batch_size l) a := by
  simp [perform, List.foldl_append]

theorem perform_counter (dry_run : Bool) (batch_size : Nat)
    (rows : List UserFriendsRow) :
    (perform dry_run batch_size rows).counter = rows.length := by
  simpa [perform] using foldl_perform_step_counter dry_run batch_size rows
    { counter := 0, edges := [], running_results := [] }

theorem perform_rr_counters (dry_run : Bool) (batch_size : Nat)
    (rows : List UserFriendsRow) :
    (perform dry_run batch_size rows).running_results.map (fun rr => rr.counter)
      = (List.range (rows.length / batch_size)).map (fun k => (k + 1) * batch_size) := by
  induction rows using List.reverseRecOn with
  | nil => simp [perform]
  | append_singleton l a ih =>
      rw [perform_append_singleton]
      have hcount : (perform dry_run batch_size l).counter = l.length :=
        perform_counter dry_run batch_size l
      by_cases hdvd : (l.length + 1) % batch_size = 0
      · have hdvd2 : batch_size ∣ l.length + 1 := Nat.dvd_of_mod_eq_zero hdvd
        have hsucc : (l.length + 1) / batch_size = l.length / batch_size + 1 := by
          rw [Nat.succ_div, if_pos hdvd2]
        have hmul : (l.length / batch_size + 1) * batch_size = l.length + 1 := by
          have h1 : (l.length + 1) / batch_size * batch_size = l.length + 1 :=
            Nat.div_mul_cancel hdvd2
          rw [hsucc] at h1
          omega
        have hrr : (perform_step dry_run batch_size (perform dry_run batch_size l) a).running_results
            = (perform dry_run batch_size l).running_results ++
              [{ counter := l.length + 1,
                 edges := (if dry_run then (perform dry_run batch_size l).edges
                   else (perform dry_run batch_size l).edges ++
                     a.friend_names.map (fun friend => (a.screen_name, friend))).length }] := by
          simp [perform_step, hcount, hdvd]
        rw [hrr]
        simp only [List.length_append, List.length_cons, List.length_nil, hsucc,
          List.map_append, ih, List.range_succ, List.map_cons, List.map_nil]
        simp [hmul]
      · have hsucc : (l.length + 1) / batch_size = l.length / batch_size := by
          rw [Nat.succ_div, if_neg (by simpa [Nat.dvd_iff_mod_eq_zero] using hdvd)]
          omega
        have hrr : (perform_step dry_run batch_size (perform dry_run batch_size l) a).running_results
            = (perform dry_run batch_size l).running_results := by
          simp [perform_step, hcount, hdvd]
        rw [hrr]
        simp only [List.length_append, List.length_cons, List.length_nil, hsucc, ih]

/-- C3: progress reporting is batched: after processing the whole row
sequence, `running_results` has exactly `⌊N / batch_size⌋` entries, and the
entry at (0-based) index `k` records counter value `(k+1) * batch_size`, i.e.
the 1-indexed k-th entry records `k * batch_size`.  Because the statement
holds for every row list, it holds in particular for every prefix
`rows.take i`, which is the loop state after the i-th iteration: an entry is
appended exactly when the incremented counter is a (positive) multiple of
`batch_size`. -/
theorem perform_running_results_batched (dry_run : Bool) (batch_size : Nat)
    (hb : 0 < batch_size) (rows : List UserFriendsRow) :
    (perform dry_run batch_size rows).running_results.length
        = rows.length / batch_size ∧
    ∀ k (hk : k < (perform dry_run batch_size rows).running_results.length),
      ((perform dry_run batch_size rows).running_results.get ⟨k, hk⟩).counter
        = (k + 1) * batch_size := by
  have hmap := perform_rr_counters dry_run batch_size rows
  have hlen : (perform dry_run batch_size rows).running_results.length
      = rows.length / batch_size := by
    have := congrArg List.length hmap
    simpa using this
  refine ⟨hlen, fun k hk => ?_⟩
  have hk2 : k < rows.length / batch_size := hlen ▸ hk
  have h := congrArg (fun t => t[k]?) hmap
  simp only [List.getElem?_map] at h
  rw [List.getElem?_eq_getElem (show k < (perform dry_run batch_size rows).running_results.length from hk),
    List.getElem?_eq_getElem (show k < (List.range (rows.length / batch_size)).length by
      simpa using hk2)] at h
  simp only [Option.map_some', List.getElem_range] at h
  have h2 := Option.some.inj h
  simpa [List.get_eq_getElem] using h2

theorem perform_running_results_batched_witness :
    0 < 2 ∧
    (perform false 2 [{ screen_name := "a", friend_names := ["b"] },
      { screen_name := "c", friend_names := [] },
      { screen_name := "d", friend_names := ["e", "f"] }]).running_results.length
        = 3 / 2 :=
  ⟨by decide, (perform_running_results_batched false 2 (by decide)
    [{ screen_name := "a", friend_names := ["b"] },
      { screen_name := "c", friend_names := [] },
      { screen_name := "d", friend_names := ["e", "f"] }]).1⟩

/-- Modelled from the spec: `bq_service.fetch_user_friends_in_batches`
(`app/bq_service.py`, not under `src/`; only its caller in
`bq_list_grapher.py` is).  Per the spec of `users_limit` in
`base_grapher.py` ("optionally specifies the maximum number of users to
fetch"), the fetch yields the user-friend rows of the warehouse, truncated to
`limit` rows when a limit is given. -/
def fetch_user_friends_in_batches (table : List UserFriendsRow)
    (limit : Option Nat) : List UserFriendsRow :=
  match limit with
  | some n => table.take n
  | none => table

/-- C7: the graph-construction pipeline is deterministic in its inputs: two
runs of `BigQueryListGrapher.perform` over the same warehouse contents with
the same configuration (`dry_run`, `batch_size`, `users_limit`) produce the
same edges list and the same constructed graph. -/
theorem perform_deterministic (t₁ t₂ : List UserFriendsRow) (d₁ d₂ : Bool)
    (b₁ b₂ : Nat) (u₁ u₂ : Option Nat)
    (ht : t₁ = t₂) (hd : d₁ = d₂) (hb : b₁ = b₂) (hu : u₁ = u₂) :
    (perform d₁ b₁ (fetch_user_friends_in_batches t₁ u₁)).edges =
      (perform d₂ b₂ (fetch_user_friends_in_batches t₂ u₂)).edges ∧
    DiGraph.of_edge_list (perform d₁ b₁ (fetch_user_friends_in_batches t₁ u₁)).edges =
      DiGraph.of_edge_list (perform d₂ b₂ (fetch_user_friends_in_batches t₂ u₂)).edges := by
  subst ht; subst hd; subst hb; subst hu
  exact ⟨rfl, rfl⟩

theorem perform_deterministic_witness :
    (perform false 1 (fetch_user_friends_in_batches
        [{ screen_name := "a", friend_names := ["b"] }] (some 1))).edges =
      (perform false 1 (fetch_user_friends_in_batches
        [{ screen_name := "a", friend_names := ["b"] }] (some 1))).edges :=
  (perform_deterministic
    [{ screen_name := "a", friend_names := ["b"] }]
    [{ screen_name := "a", friend_names := ["b"] }]
    false false 1 1 (some 1) (some 1) rfl rfl rfl rfl).1

theorem foldl_perform_step_rr_map_counter (d₁ d₂ : Bool) (b : Nat)
    (rows : List UserFriendsRow) (s₁ s₂ : GrapherState)
    (hc : s₁.counter = s₂.counter)
    (hrr : s₁.running_results.map (fun rr => rr.counter)
      = s₂.running_results.map (fun rr => rr.counter)) :
    (rows.foldl (perform_step d₁ b) s₁).running_results.map (fun rr => rr.counter)
      = (rows.foldl (perform_step d₂ b) s₂).running_results.map (fun rr => rr.counter) := by
  induction rows generalizing s₁ s₂ with
  | nil => exact hrr
  | cons r rs ih =>
      simp only [List.foldl_cons]
      apply ih
      · simp [perform_step, hc]
      · by_cases h : (s₂.counter + 1) % b = 0
        · simp [perform_step, hc, h, hrr]
        · simp [perform_step, hc, h, hrr]

theorem foldl_perform_step_dry_rr_edges (b : Nat) (rows : List UserFriendsRow)
    (s : GrapherState) (hse : s.edges = [])
    (hsr : ∀ rr ∈ s.running_results, rr.edges = 0) :
    ∀ rr ∈ (rows.foldl (perform_step true b) s).running_results, rr.edges = 0 := by
  induction rows generalizing s with
  | nil => exact hsr
  | cons r rs ih =>
      simp only [List.foldl_cons]
      apply ih
      · simp [perform_step, hse]
      · intro rr hrr
        by_cases h : (s.counter + 1) % b = 0
        · simp only [perform_step, h, hse] at hrr
          simp at hrr
          rcases hrr with hrr | hrr
          · exact hsr rr hrr
          · simp [hrr]
        · simp [perform_step, h] at hrr
          exact hsr rr hrr

/-- C8 is false as stated: a dry run changes the batched running results,
because each entry records `len(self.edges)`, which stays 0 in a dry run.
With one row carrying one friend and `batch_size = 1`, the dry-run entry
records 0 edges while the non-dry-run entry records 1. -/
theorem perform_dry_run_running_results_differ :
    (perform true 1 [{ screen_name := "a", friend_names := ["b"] }]).running_results
      ≠ (perform false 1 [{ screen_name := "a", friend_names := ["b"] }]).running_results := by
  decide

/-- C8 (amended): when `dry_run` is true, the loop still counts every fetched
row — the counter and the number of running-results entries and their counter
values match a non-dry run — but no edge is ever appended (the `edges`
field of each entry is 0), and the constructed graph has no nodes and no
edges. -/
theorem perform_dry_run_behavior (batch_size : Nat) (rows : List UserFriendsRow) :
    (perform true batch_size rows).edges = [] ∧
    (perform true batch_size rows).counter = (perform false batch_size rows).counter ∧
    (perform true batch_size rows).running_results.map (fun rr => rr.counter)
      = (perform false batch_size rows).running_results.map (fun rr => rr.counter) ∧
    (∀ rr ∈ (perform true batch_size rows).running_results, rr.edges = 0) ∧
    (DiGraph.of_edge_list (perform true batch_size rows).edges).nodes = ∅ ∧
    (DiGraph.of_edge_list (perform true batch_size rows).edges).edges = ∅ := by
  have hedges : (perform true batch_size rows).edges = [] := by
    simpa [perform] using foldl_perform_step_edges_true batch_size rows
      { counter := 0, edges := [], running_results := [] }
  refine ⟨hedges, ?_, ?_, ?_, ?_, ?_⟩
  · rw [perform_counter, perform_counter]
  · exact foldl_perform_step_rr_map_counter true false batch_size rows _ _ rfl rfl
  · exact foldl_perform_step_dry_rr_edges batch_size rows _ rfl (by simp)
  · rw [hedges]; simp [DiGraph.of_edge_list]
  · rw [hedges]; simp [DiGraph.of_edge_list]

theorem perform_dry_run_behavior_witness :
    (perform true 1 [{ screen_name := "a", friend_names := ["b"] }]).edges = [] :=
  (perform_dry_run_behavior 1 [{ screen_name := "a", friend_names := ["b"] }]).1

/-- The externally observable operations of the
`daily_active_user_friend_grapher.py` `__main__` script, in the order it can
perform them. -/
inductive DailyGrapherAction where
  | load_tweets_from_csv
  | fetch_tweeter_statuses
  | write_tweets_csv
  | load_graph_from_gpickle
  | add_nodes
  | add_edges
  | write_graph_gpickle
  | upload_graph
deriving DecidableEq, Repr

/-- The action trace of the `daily_active_user_friend_grapher.py` script as a
function of the two checkpoint checks:

    if os.path.exists(tweets_csv_filepath) and not DESTRUCTIVE:
        statuses_df = read_csv(tweets_csv_filepath)
    else:
        ... fetch_daily_active_tweeter_statuses ... statuses_df.to_csv(...)

    if os.path.exists(local_graph_filepath) and not GRAPH_DESTRUCTIVE:
        graph = read_gpickle(local_graph_filepath)
    else:
        ... add_node loop ... add_edges_from loop ...
        write_gpickle(graph, local_graph_filepath)
        storage.upload_file(local_graph_filepath, gcs_graph_filepath)
-/
def daily_grapher_trace (tweets_csv_exists destructive graph_exists
    graph_destructive : Bool) : List DailyGrapherAction :=
  (if tweets_csv_exists && !destructive then
    [DailyGrapherAction.load_tweets_from_csv]
   else
    [DailyGrapherAction.fetch_tweeter_statuses, DailyGrapherAction.write_tweets_csv]) ++
  (if graph_exists && !graph_destructive then
    [DailyGrapherAction.load_graph_from_gpickle]
   else
    [DailyGrapherAction.add_nodes, DailyGrapherAction.add_edges,
     DailyGrapherAction.write_graph_gpickle, DailyGrapherAction.upload_graph])

/-- C1 is false as stated: existence of the local tweets CSV alone does not
make the script skip the warehouse fetch — with the `DESTRUCTIVE` env flag
set, the script re-downloads even though the checkpoint file exists. -/
theorem daily_grapher_trace_refetches_when_destructive :
    DailyGrapherAction.fetch_tweeter_statuses ∈ daily_grapher_trace true true false false ∧
    DailyGrapherAction.load_tweets_from_csv ∉ daily_grapher_trace true true false false := by
  decide

/-- C1 (amended): provided the `DESTRUCTIVE` flag is false, an existing local
tweets CSV makes the script load the statuses from the file and perform no
warehouse fetch for tweets; and provided the `GRAPH_DESTRUCTIVE` flag is
false, an existing local graph gpickle makes the script load the graph from
the file and perform no node/edge construction, no graph write and no graph
upload. -/
theorem daily_grapher_trace_resumes (tweets_csv_exists destructive
    graph_exists graph_destructive : Bool) :
    (tweets_csv_exists = true → destructive = false →
      DailyGrapherAction.load_tweets_from_csv ∈
        daily_grapher_trace tweets_csv_exists destructive graph_exists graph_destructive ∧
      DailyGrapherAction.fetch_tweeter_statuses ∉
        daily_grapher_trace tweets_csv_exists destructive graph_exists graph_destructive ∧
      DailyGrapherAction.write_tweets_csv ∉
        daily_grapher_trace tweets_csv_exists destructive graph_exists graph_destructive) ∧
    (graph_exists = true → graph_destructive = false →
      DailyGrapherAction.load_graph_from_gpickle ∈
        daily_grapher_trace tweets_csv_exists destructive graph_exists graph_destructive ∧
      DailyGrapherAction.add_nodes ∉
        daily_grapher_trace tweets_csv_exists destructive graph_exists graph_destructive ∧
      DailyGrapherAction.add_edges ∉
        daily_grapher_trace tweets_csv_exists destructive graph_exists graph_destructive ∧
      DailyGrapherAction.write_graph_gpickle ∉
        daily_grapher_trace tweets_csv_exists destructive graph_exists graph_destructive ∧
      DailyGrapherAction.upload_graph ∉
        daily_grapher_trace tweets_csv_exists destructive graph_exists graph_destructive) := by
  constructor
  · rintro rfl rfl
    cases graph_exists <;> cases graph_destructive <;> decide
  · rintro rfl rfl
    cases tweets_csv_exists <;> cases destructive <;> decide

theorem daily_grapher_trace_resumes_witness :
    DailyGrapherAction.load_tweets_from_csv ∈ daily_grapher_trace true false true false ∧
    DailyGrapherAction.load_graph_from_gpickle ∈ daily_grapher_trace true false true false :=
  ⟨((daily_grapher_trace_resumes true false true false).1 rfl rfl).1,
   ((daily_grapher_trace_resumes true false true false).2 rfl rfl).1⟩

/-- The method `BaseGrapher.init_local_dir` over a filesystem abstracted as the list of
existing paths:

    def init_local_dir(self):
        if not os.path.exists(self.local_dirpath):
            os.mkdir(self.local_dirpath)

`os.mkdir` adds the directory to the filesystem and touches nothing else. -/
def init_local_dir (fs : List String) (local_dirpath : String) : List String :=
  if local_dirpath ∈ fs then fs else local_dirpath :: fs

/-- C10: `init_local_dir` is idempotent — calling it twice leaves the same
filesystem as calling it once; it creates the directory only when it does not
already exist (when the directory exists the filesystem is returned
unchanged), and it never removes or modifies existing contents. -/
theorem init_local_dir_idempotent (fs : List String) (local_dirpath : String) :
    init_local_dir (init_local_dir fs local_dirpath) local_dirpath
      = init_local_dir fs local_dirpath ∧
    (local_dirpath ∈ fs → init_local_dir fs local_dirpath = fs) ∧
    (local_dirpath ∉ fs →
      init_local_dir fs local_dirpath = local_dirpath :: fs) ∧
    ∀ p ∈ fs, p ∈ init_local_dir fs local_dirpath := by
  refine ⟨?_, ?_, ?_, ?_⟩
  · by_cases h : local_dirpath ∈ fs
    · simp [init_local_dir, h]
    · simp [init_local_dir, h]
  · intro h; simp [init_local_dir, h]
  · intro h; simp [init_local_dir, h]
  · intro p hp
    by_cases h : local_dirpath ∈ fs
    · simpa [init_local_dir, h] using hp
    · simp [init_local_dir, h, hp]

theorem init_local_dir_idempotent_witness :
    "/graphs/archived/job1" ∈ ["/graphs/archived/job1"] →
    init_local_dir ["/graphs/archived/job1"] "/graphs/archived/job1"
      = ["/graphs/archived/job1"] :=
  (init_local_dir_idempotent ["/graphs/archived/job1"] "/graphs/archived/job1").2.1

/-- The pieces appended to the `sql` string by
`BigQueryService.fetch_remaining_users`, one constructor per `sql =` / `sql +=`
statement; `render` below gives the exact text of each piece. -/
inductive SqlPiece where
  | remaining_users_base (dataset_address : String)
  | between_filter (min_id max_id : Int)
  | order_by_semi
  | order_by
  | limit_clause (limit : Int)
deriving DecidableEq, Repr

/-- The exact text of each piece of the `fetch_remaining_users` query
(f-string interpolation of `self.dataset_address`, `int(min_id)`,
`int(max_id)` and `limit`). -/
def SqlPiece.render : SqlPiece → String
  | SqlPiece.remaining_users_base addr =>
      "\n            SELECT\n                u.user_id\n            FROM `" ++ addr ++
      ".users` u\n            LEFT JOIN `" ++ addr ++
      ".user_friends` f ON u.user_id = f.user_id\n            WHERE f.user_id IS NULL\n        "
  | SqlPiece.between_filter min_id max_id =>
      "  AND CAST(u.user_id as int64) BETWEEN " ++ toString min_id ++
      " AND " ++ toString max_id ++ " "
  | SqlPiece.order_by_semi => "ORDER BY u.user_id;"
  | SqlPiece.order_by => "ORDER BY u.user_id "
  | SqlPiece.limit_clause limit => "LIMIT " ++ toString limit ++ ";"

/-- Python truthiness of an optional integer argument (`None` and `0` are
falsy), as tested by `if min_id and max_id:` and `elif limit:`. -/
def py_truthy : Option Int → Bool
  | none => false
  | some v => v != 0

/-- The branch structure of `BigQueryService.fetch_remaining_users`:

    sql = f"... WHERE f.user_id IS NULL ..."
    if min_id and max_id:
        sql += f"  AND CAST(u.user_id as int64) BETWEEN {int(min_id)} AND {int(max_id)} "
        sql += f"ORDER BY u.user_id;"
    elif limit:
        sql += f"ORDER BY u.user_id "
        sql += f"LIMIT {limit};"
    else:
        sql += f"ORDER BY u.user_id;"
-/
def fetch_remaining_users_sql_pieces (dataset_address : String)
    (min_id max_id limit : Option Int) : List SqlPiece :=
  [SqlPiece.remaining_users_base dataset_address] ++
  (if py_truthy min_id && py_truthy max_id then
    [SqlPiece.between_filter (min_id.getD 0) (max_id.getD 0), SqlPiece.order_by_semi]
   else if py_truthy limit then
    [SqlPiece.order_by, SqlPiece.limit_clause (limit.getD 0)]
   else
    [SqlPiece.order_by_semi])

/-- The full SQL string generated by `fetch_remaining_users`: the
concatenation of the appended pieces. -/
def fetch_remaining_users_sql (dataset_address : String)
    (min_id max_id limit : Option Int) : String :=
  String.join ((fetch_remaining_users_sql_pieces dataset_address min_id max_id limit).map
    SqlPiece.render)

/-- C9 is false as stated: `min_id = 0` and `max_id = 5` are both provided
(non-`None`), yet because the Python truthiness test `if min_id and max_id:`
treats the integer 0 as falsy, the code falls through to the `elif limit:`
branch and emits a LIMIT clause with no BETWEEN filter. -/
theorem fetch_remaining_users_limit_despite_ids :
    fetch_remaining_users_sql_pieces ("tweet-collector-py.impeachment_development")
        (some 0) (some 5) (some 10)
      = [SqlPiece.remaining_users_base ("tweet-collector-py.impeachment_development"),
         SqlPiece.order_by, SqlPiece.limit_clause 10] := by
  decide

/-- C9 (amended): the `limit` parameter is silently ignored whenever `min_id`
and `max_id` are both truthy (non-`None` and non-zero): the generated SQL
then contains a BETWEEN filter and no LIMIT clause; and a LIMIT clause is
emitted exactly when `min_id` and `max_id` are not both truthy and `limit` is
truthy. -/
theorem fetch_remaining_users_limit_ignored (dataset_address : String)
    (min_id max_id limit : Option Int) :
    (py_truthy min_id = true → py_truthy max_id = true →
      SqlPiece.between_filter (min_id.getD 0) (max_id.getD 0) ∈
        fetch_remaining_users_sql_pieces dataset_address min_id max_id limit ∧
      ∀ n, SqlPiece.limit_clause n ∉
        fetch_remaining_users_sql_pieces dataset_address min_id max_id limit) ∧
    ((∃ n, SqlPiece.limit_clause n ∈
        fetch_remaining_users_sql_pieces dataset_address min_id max_id limit) ↔
      ¬(py_truthy min_id = true ∧ py_truthy max_id = true) ∧ py_truthy limit = true) := by
  constructor
  · intro h1 h2
    constructor
    · simp [fetch_remaining_users_sql_pieces, h1, h2]
    · intro n
      simp [fetch_remaining_users_sql_pieces, h1, h2]
  · constructor
    · rintro ⟨n, hn⟩
      by_cases hmm : py_truthy min_id && py_truthy max_id
      · simp [fetch_remaining_users_sql_pieces, hmm] at hn
      · by_cases hl : py_truthy limit
        · refine ⟨?_, hl⟩
          intro hc
          exact hmm (by simp [hc.1, hc.2])
        · simp [fetch_remaining_users_sql_pieces, hmm, hl] at hn
    · rintro ⟨hmm, hl⟩
      have hmm' : ¬(py_truthy min_id && py_truthy max_id) := by
        intro hc
        rcases Bool.and_eq_true _ _ |>.mp hc with ⟨h1, h2⟩
        exact hmm ⟨h1, h2⟩
      exact ⟨limit.getD 0, by simp [fetch_remaining_users_sql_pieces, hmm', hl]⟩

theorem fetch_remaining_users_limit_ignored_witness :
    py_truthy (some 1) = true ∧
    (SqlPiece.between_filter ((some (1 : Int)).getD 0) ((some (9 : Int)).getD 0) ∈
      fetch_remaining_users_sql_pieces ("tweet-collector-py.impeachment_development")
        (some 1) (some 9) (some 10)) :=
  ⟨by decide,
    ((fetch_remaining_users_limit_ignored ("tweet-collector-py.impeachment_development")
      (some 1) (some 9) (some 10)).1 (by decide) (by decide)).1⟩

theorem except_error_bind {ε α β : Type} (e : ε) (f : α → Except ε β) :
    (Except.error e >>= f : Except ε β) = Except.error e := rfl

theorem except_ok_bind {ε α β : Type} (a : α) (f : α → Except ε β) :
    (Except.ok a >>= f : Except ε β) = f a := rfl

/-- The outcome of each constituent effectful operation of one run of
`BigQueryListGrapher.perform`, in program order: the metadata write/upload,
the warehouse fetch, the results write/upload, the edges write/upload and the
graph write/upload.  Each either succeeds or raises an error of type `ε`. -/
structure PerformOps (ε : Type) where
  write_metadata_to_file : Except ε Unit
  upload_metadata : Except ε Unit
  fetch_user_friends : Except ε (List UserFriendsRow)
  write_results_to_file : Except ε Unit
  upload_results : Except ε Unit
  write_edges_to_file : Except ε Unit
  upload_edges : Except ε Unit
  write_graph_to_file : Except ε Unit
  upload_graph : Except ε Unit

/-- The method `BigQueryListGrapher.perform` with its effectful operations made explicit:
the method body sequences them with no `try`/`except`, no retry and no
fallback, so the error of each operation propagates as the result of `perform`. -/
def perform_run (dry_run : Bool) (batch_size : Nat) {ε : Type}
    (ops : PerformOps ε) : Except ε DiGraph := do
  ops.write_metadata_to_file
  ops.upload_metadata
  let rows ← ops.fetch_user_friends
  let s := perform dry_run batch_size rows
  ops.write_results_to_file
  ops.upload_results
  ops.write_edges_to_file
  ops.upload_edges
  let graph := DiGraph.of_edge_list s.edges
  ops.write_graph_to_file
  ops.upload_graph
  pure graph

/-- C5: no error is caught or retried: `perform` succeeds iff every
constituent operation succeeds, and when it fails it fails with an error
raised by one of the constituent operations (no retry, fallback, or recovery
branch). -/
theorem perform_run_propagates {ε : Type} (dry_run : Bool) (batch_size : Nat)
    (ops : PerformOps ε) :
    ((∃ g, perform_run dry_run batch_size ops = Except.ok g) ↔
      (ops.write_metadata_to_file = Except.ok () ∧
       ops.upload_metadata = Except.ok () ∧
       (∃ rows, ops.fetch_user_friends = Except.ok rows) ∧
       ops.write_results_to_file = Except.ok () ∧
       ops.upload_results = Except.ok () ∧
       ops.write_edges_to_file = Except.ok () ∧
       ops.upload_edges = Except.ok () ∧
       ops.write_graph_to_file = Except.ok () ∧
       ops.upload_graph = Except.ok ())) ∧
    ∀ e, perform_run dry_run batch_size ops = Except.error e →
      (ops.write_metadata_to_file = Except.error e ∨
       ops.upload_metadata = Except.error e ∨
       ops.fetch_user_friends = Except.error e ∨
       ops.write_results_to_file = Except.error e ∨
       ops.upload_results = Except.error e ∨
       ops.write_edges_to_file = Except.error e ∨
       ops.upload_edges = Except.error e ∨
       ops.write_graph_to_file = Except.error e ∨
       ops.upload_graph = Except.error e) := by
  obtain ⟨o1, o2, o3, o4, o5, o6, o7, o8, o9⟩ := ops
  cases o1 with
  | error e1 => exact ⟨by simp [perform_run, except_error_bind], fun e he => Or.inl (by simpa [perform_run, except_error_bind, except_ok_bind] using he)⟩
  | ok u1 =>
  cases u1
  cases o2 with
  | error e2 =>
      exact ⟨by simp [perform_run, except_error_bind, except_ok_bind],
        fun e he => Or.inr (Or.inl (by simpa [perform_run, except_error_bind, except_ok_bind] using he))⟩
  | ok u2 =>
  cases u2
  cases o3 with
  | error e3 =>
      exact ⟨by simp [perform_run, except_error_bind, except_ok_bind],
        fun e he => Or.inr (Or.inr (Or.inl (by simpa [perform_run, except_error_bind, except_ok_bind] using he)))⟩
  | ok rows =>
  cases o4 with
  | error e4 =>
      exact ⟨by simp [perform_run, except_error_bind, except_ok_bind],
        fun e he => Or.inr (Or.inr (Or.inr (Or.inl (by simpa [perform_run, except_error_bind, except_ok_bind] using he))))⟩
  | ok u4 =>
  cases u4
  cases o5 with
  | error e5 =>
      exact ⟨by simp [perform_run, except_error_bind, except_ok_bind],
        fun e he => Or.inr (Or.inr (Or.inr (Or.inr (Or.inl (by simpa [perform_run, except_error_bind, except_ok_bind] using he)))))⟩
  | ok u5 =>
  cases u5
  cases o6 with
  | error e6 =>
      exact ⟨by simp [perform_run, except_error_bind, except_ok_bind],
        fun e he => Or.inr (Or.inr (Or.inr (Or.inr (Or.inr (Or.inl (by simpa [perform_run, except_error_bind, except_ok_bind] using he))))))⟩
  | ok u6 =>
  cases u6
  cases o7 with
  | error e7 =>
      exact ⟨by simp [perform_run, except_error_bind, except_ok_bind],
        fun e he => Or.inr (Or.inr (Or.inr (Or.inr (Or.inr (Or.inr (Or.inl (by simpa [perform_run, except_error_bind, except_ok_bind] using he)))))))⟩
  | ok u7 =>
  cases u7
  cases o8 with
  | error e8 =>
      exact ⟨by simp [perform_run, except_error_bind, except_ok_bind],
        fun e he => Or.inr (Or.inr (Or.inr (Or.inr (Or.inr (Or.inr (Or.inr (Or.inl (by simpa [perform_run, except_error_bind, except_ok_bind] using he))))))))⟩
  | ok u8 =>
  cases u8
  cases o9 with
  | error e9 =>
      exact ⟨by simp [perform_run, except_error_bind, except_ok_bind],
        fun e he => Or.inr (Or.inr (Or.inr (Or.inr (Or.inr (Or.inr (Or.inr (Or.inr (by simpa [perform_run, except_error_bind, except_ok_bind] using he))))))))⟩
  | ok u9 =>
  cases u9
  exact ⟨⟨fun _ => ⟨rfl, rfl, ⟨rows, rfl⟩, rfl, rfl, rfl, rfl, rfl, rfl⟩,
    fun _ => ⟨DiGraph.of_edge_list (perform dry_run batch_size rows).edges, rfl⟩⟩,
    fun e he => nomatch he⟩

theorem perform_run_propagates_witness :
    ∃ g, perform_run false 100
      ({ write_metadata_to_file := Except.ok (), upload_metadata := Except.ok (),
         fetch_user_friends := Except.ok [], write_results_to_file := Except.ok (),
         upload_results := Except.ok (), write_edges_to_file := Except.ok (),
         upload_edges := Except.ok (), write_graph_to_file := Except.ok (),
         upload_graph := Except.ok () } : PerformOps Nat) = Except.ok g :=
  (perform_run_propagates false 100 _).1.mpr
    ⟨rfl, rfl, ⟨[], rfl⟩, rfl, rfl, rfl, rfl, rfl, rfl⟩

/-- Modelled from the spec: `split_into_batches`
(`app/friend_collection/batch_per_thread.py` is not under `src/`; only its
test `test/test_friend_collection_in_batches.py` is).  Per the spec, "a list
is partitioned into batches of size n, with a final shorter remainder": the
first `n` items form the first batch, the rest is split the same way. -/
def split_into_batches {α : Type} : List α → Nat → List (List α)
  | [], _ => []
  | _ :: _, 0 => []
  | x :: xs, n + 1 =>
      ((x :: xs).take (n + 1)) :: split_into_batches ((x :: xs).drop (n + 1)) (n + 1)
termination_by l _ => l.length
decreasing_by simp [List.length_drop]; omega

/-- The test case of the repository itself (`test_split_into_batches`). -/
theorem test_split_into_batches :
    split_into_batches [0, 1, 2, 3, 4, 5, 6, 7, 8, 9, 10] 3
      = [[0, 1, 2], [3, 4, 5], [6, 7, 8], [9, 10]] := by
  simp [split_into_batches]

theorem split_into_batches_eq_nil {α : Type} (l : List α) (n : Nat) (hn : 0 < n) :
    split_into_batches l n = [] ↔ l = [] := by
  cases l with
  | nil => simp [split_into_batches]
  | cons x xs =>
      obtain ⟨m, rfl⟩ : ∃ m, n = m + 1 := ⟨n - 1, by omega⟩
      simp [split_into_batches]

theorem split_into_batches_spec_aux {α : Type} (n : Nat) (hn : 0 < n) :
    ∀ (m : Nat) (l : List α), l.length ≤ m →
      (split_into_batches l n).flatten = l ∧
      (∀ b ∈ (split_into_batches l n).dropLast, b.length = n) ∧
      (∀ b ∈ split_into_batches l n, b ≠ [] ∧ b.length ≤ n) := by
  intro m
  induction m with
  | zero =>
      intro l hl
      have hle : l = [] := List.length_eq_zero.mp (by omega)
      subst hle
      simp [split_into_batches]
  | succ m ih =>
      intro l hl
      cases l with
      | nil => simp [split_into_batches]
      | cons x xs =>
          obtain ⟨k, rfl⟩ : ∃ k, n = k + 1 := ⟨n - 1, by omega⟩
          have hdroplen : ((x :: xs).drop (k + 1)).length ≤ m := by
            simp only [List.length_drop, List.length_cons] at *
            omega
          obtain ⟨ihflat, ihdrop, ihall⟩ := ih ((x :: xs).drop (k + 1)) hdroplen
          have heq : split_into_batches (x :: xs) (k + 1)
              = ((x :: xs).take (k + 1)) ::
                split_into_batches ((x :: xs).drop (k + 1)) (k + 1) := by
            simp [split_into_batches]
          rw [heq]
          refine ⟨?_, ?_, ?_⟩
          · simp only [List.flatten_cons, ihflat, List.take_append_drop]
          · by_cases hrest : (x :: xs).drop (k + 1) = []
            · have hnil : split_into_batches ((x :: xs).drop (k + 1)) (k + 1) = [] :=
                (split_into_batches_eq_nil _ _ (by omega)).mpr hrest
              rw [hnil]
              simp
            · have hne : split_into_batches ((x :: xs).drop (k + 1)) (k + 1) ≠ [] := by
                intro hc
                exact hrest ((split_into_batches_eq_nil _ _ (by omega)).mp hc)
              rw [List.dropLast_cons_of_ne_nil hne]
              intro b hb
              rcases List.mem_cons.mp hb with rfl | hb2
              · have hlong : k + 1 ≤ xs.length + 1 := by
                  by_contra hc
                  push_neg at hc
                  exact hrest (List.drop_eq_nil_of_le (by simp; omega))
                simp [List.length_take]
                omega
              · exact ihdrop b hb2
          · intro b hb
            rcases List.mem_cons.mp hb with rfl | hb2
            · constructor
              · simp
              · simp [List.length_take]
            · exact ihall b hb2

/-- C4: `split_into_batches` partitions a list into batches of size `n` with
a final shorter remainder: for every `n > 0`, concatenating the batches in
order yields the list back, every batch except possibly the last has length
exactly `n`, and every batch (the last one included) is non-empty with length
at most `n`. -/
theorem split_into_batches_partitions {α : Type} (n : Nat) (hn : 0 < n)
    (l : List α) :
    (split_into_batches l n).flatten = l ∧
    (∀ b ∈ (split_into_batches l n).dropLast, b.length = n) ∧
    (∀ b ∈ split_into_batches l n, b ≠ [] ∧ b.length ≤ n) :=
  split_into_batches_spec_aux n hn l.length l (le_refl _)

theorem split_into_batches_partitions_witness :
    0 < 3 ∧
    (split_into_batches [0, 1, 2, 3, 4, 5, 6, 7, 8, 9, 10] 3).flatten
      = [0, 1, 2, 3, 4, 5, 6, 7, 8, 9, 10] :=
  ⟨by decide,
    (split_into_batches_partitions 3 (by decide) [0, 1, 2, 3, 4, 5, 6, 7, 8, 9, 10]).1⟩

/-- One row of a community retweets table, as read by
`RetweetsAnalyzer.most_retweets_df`: the screen name of the retweeted user and the
retweeting status id. -/
structure RetweetRow where
  retweeted_user_screen_name : String
  status_id : String
deriving DecidableEq, Repr

/-- The property `RetweetsAnalyzer.most_retweets_df`:

    df = self.community_retweets_df.groupby("retweeted_user_screen_name").agg({"status_id": ["nunique"]})

one output row per distinct `retweeted_user_screen_name` (pandas group keys,
in sorted order), paired with the number of distinct `status_id` values in
the group of that user ("Retweet Count"). -/
def most_retweets_df (community_retweets_df : List RetweetRow) : List (String × Nat) :=
  (((community_retweets_df.map
        (fun r => r.retweeted_user_screen_name)).dedup).mergeSort
      (fun a b => decide (a ≤ b))).map
    (fun name =>
      (name,
        ((community_retweets_df.filter
          (fun r => r.retweeted_user_screen_name == name)).map
            (fun r => r.status_id)).dedup.length))

/-- The method `RetweetsAnalyzer.generate_most_retweets_chart`:

    chart_df = self.most_retweets_df.copy()
    chart_df.sort_values("Retweet Count", ascending=False, inplace=True)  # sort for top
    chart_df = chart_df[:top_n]  # take top n rows
    chart_df.sort_values("Retweet Count", ascending=True, inplace=True)  # re-sort for chart
-/
def generate_most_retweets_chart (community_retweets_df : List RetweetRow)
    (top_n : Nat := 10) : List (String × Nat) :=
  let chart_df := (most_retweets_df community_retweets_df).mergeSort
    (fun a b => decide (b.2 ≤ a.2))
  let chart_df := chart_df.take top_n
  chart_df.mergeSort (fun a b => decide (a.2 ≤ b.2))

/-- C6: `most_retweets_df` contains one row per distinct retweeted user, with
the count of distinct retweeting status ids; `generate_most_retweets_chart`
selects exactly `top_n` (default 10) rows — those with the largest counts:
the count of every selected row is at least the count of every unselected row. -/
theorem most_retweets_grouping (rows : List RetweetRow) (top_n : Nat) :
    ((most_retweets_df rows).map Prod.fst).Nodup ∧
    (∀ name, name ∈ (most_retweets_df rows).map Prod.fst ↔
      name ∈ rows.map (fun r => r.retweeted_user_screen_name)) ∧
    (∀ p ∈ most_retweets_df rows,
      p.2 = ((rows.filter (fun r => r.retweeted_user_screen_name == p.1)).map
        (fun r => r.status_id)).dedup.length) ∧
    (generate_most_retweets_chart rows top_n).length
      = min top_n (most_retweets_df rows).length ∧
    (∀ p ∈ generate_most_retweets_chart rows top_n, p ∈ most_retweets_df rows) ∧
    (∀ p ∈ generate_most_retweets_chart rows top_n,
      ∀ q ∈ most_retweets_df rows,
        q ∉ generate_most_retweets_chart rows top_n → q.2 ≤ p.2) := by
  have hmapfst : (most_retweets_df rows).map Prod.fst
      = ((rows.map (fun r => r.retweeted_user_screen_name)).dedup).mergeSort
          (fun a b => decide (a ≤ b)) := by
    simp only [most_retweets_df, List.map_map]
    exact List.map_id _
  have hperm_names :
      List.Perm (((rows.map (fun r => r.retweeted_user_screen_name)).dedup).mergeSort
        (fun a b => decide (a ≤ b)))
        ((rows.map (fun r => r.retweeted_user_screen_name)).dedup) :=
    List.mergeSort_perm _ _
  have hperm_desc :
      List.Perm ((most_retweets_df rows).mergeSort (fun a b => decide (b.2 ≤ a.2)))
        (most_retweets_df rows) :=
    List.mergeSort_perm _ _
  have hperm_chart :
      List.Perm (generate_most_retweets_chart rows top_n)
        (((most_retweets_df rows).mergeSort (fun a b => decide (b.2 ≤ a.2))).take top_n) := by
    simpa [generate_most_retweets_chart] using
      List.mergeSort_perm
        (((most_retweets_df rows).mergeSort (fun a b => decide (b.2 ≤ a.2))).take top_n)
        (fun a b => decide (a.2 ≤ b.2))
  refine ⟨?_, ?_, ?_, ?_, ?_, ?_⟩
  · rw [hmapfst]
    exact hperm_names.nodup_iff.mpr (List.nodup_dedup _)
  · intro name
    rw [hmapfst, hperm_names.mem_iff, List.mem_dedup]
  · intro p hp
    rcases List.mem_map.mp hp with ⟨name, hname, rfl⟩
    rfl
  · rw [hperm_chart.length_eq, List.length_take, hperm_desc.length_eq]
  · intro p hp
    have hp2 : p ∈ ((most_retweets_df rows).mergeSort
        (fun a b => decide (b.2 ≤ a.2))).take top_n := hperm_chart.mem_iff.mp hp
    exact hperm_desc.mem_iff.mp (List.mem_of_mem_take hp2)
  · intro p hp q hq hqnot
    have hpw : List.Pairwise
        (fun a b : String × Nat => (fun x y : String × Nat => decide (y.2 ≤ x.2)) a b = true)
        ((most_retweets_df rows).mergeSort (fun a b => decide (b.2 ≤ a.2))) := by
      apply List.sorted_mergeSort
      · intro a b c hab hbc
        simp only [decide_eq_true_eq] at hab hbc ⊢
        omega
      · intro a b
        simp only [Bool.or_eq_true, decide_eq_true_eq]
        omega
    have hsplit := List.take_append_drop top_n
      ((most_retweets_df rows).mergeSort (fun a b => decide (b.2 ≤ a.2)))
    rw [← hsplit] at hpw
    obtain ⟨-, -, hcross⟩ := List.pairwise_append.mp hpw
    have hp2 : p ∈ ((most_retweets_df rows).mergeSort
        (fun a b => decide (b.2 ≤ a.2))).take top_n := hperm_chart.mem_iff.mp hp
    have hq2 : q ∈ ((most_retweets_df rows).mergeSort
        (fun a b => decide (b.2 ≤ a.2))).drop top_n := by
      have hq3 : q ∈ ((most_retweets_df rows).mergeSort
          (fun a b => decide (b.2 ≤ a.2))).take top_n ++
          ((most_retweets_df rows).mergeSort (fun a b => decide (b.2 ≤ a.2))).drop top_n := by
        rw [hsplit]
        exact hperm_desc.mem_iff.mpr hq
      rcases List.mem_append.mp hq3 with hq4 | hq4
      · exact absurd (hperm_chart.mem_iff.mpr hq4) hqnot
      · exact hq4
    have := hcross p hp2 q hq2
    simpa using this

theorem most_retweets_grouping_witness :
    (("alice", 2) : String × Nat).2
      = ((([{ retweeted_user_screen_name := "alice", status_id := "s1" },
            { retweeted_user_screen_name := "alice", status_id := "s2" },
            { retweeted_user_screen_name := "alice", status_id := "s1" }] :
              List RetweetRow).filter
            (fun r => r.retweeted_user_screen_name == (("alice", 2) : String × Nat).1)).map
          (fun r => r.status_id)).dedup.length :=
  (most_retweets_grouping
    [{ retweeted_user_screen_name := "alice", status_id := "s1" },
     { retweeted_user_screen_name := "alice", status_id := "s2" },
     { retweeted_user_screen_name := "alice", status_id := "s1" }] 10).2.2.1
    ("alice", 2) (by simp [most_retweets_df])
